import Mathlib

/-!
A shallow embedding of the odrive-rs ASCII-protocol client
(`src/commands/mod.rs`), together with theorems settling the behavioural
properties of its read path, command writers and state-polling loop.

Modelling conventions:
* The underlying byte stream is modelled by the sequence of results that
  successive calls to `io_stream.read` on a one-byte buffer produce
  (`ReadEvent`): one byte, zero bytes ("no data"), or an I/O error.
* Wall-clock time is abstracted: the 1000 ms deadline check
  (`duration.elapsed().as_millis() >= 1_000`, which the code performs only
  after a zero-byte read) is modelled by a boolean predicate on the index of
  the read call.  For finite traces we use the instantiation where the
  deadline elapses exactly when the trace is exhausted.
* Machine integers are modelled as `Nat` / `Int`; `f32` replies are parsed
  to exact rational values (IEEE rounding is irrelevant to the claims,
  which concern the parse-failure fallback and command formatting).
-/

namespace Odrive

/-- Result of one call to `io_stream.read` on a one-byte buffer:
a byte was read (`byte b`, with `b < 256`), the read returned `Ok(0)`
(`noData`), or it returned `Err(_)` (`ioError`).  The code collapses the
last two with `.unwrap_or_default()` (src/commands/mod.rs line 56). -/
inductive ReadEvent : Type where
  | byte (b : Nat)
  | noData
  | ioError
deriving DecidableEq

/-- Whitespace in the sense of Rust's `str::trim` (Unicode `White_Space`),
restricted to the characters that can ever occur here: `read_string` builds
its string from single bytes via `u8 as char`, i.e. code points below 256,
of which exactly U+0009..U+000D, U+0020, U+0085 and U+00A0 are whitespace. -/
def rustIsWhitespace (c : Char) : Bool :=
  c.toNat = 9 || c.toNat = 10 || c.toNat = 11 || c.toNat = 12 ||
  c.toNat = 13 || c.toNat = 32 || c.toNat = 133 || c.toNat = 160

/-- Rust's `str::trim`: drop leading and trailing whitespace. -/
def rustTrim (s : String) : String :=
  String.mk (((s.data.dropWhile rustIsWhitespace).reverse.dropWhile
    rustIsWhitespace).reverse)

/-- The loop of `ODrive::read_string` (src/commands/mod.rs lines 51-70) over
an infinite stream model.  `stream k` is the result of the k-th read call;
`timeout k` tells whether the 1000 ms deadline has elapsed at the check that
follows a zero-byte result of the k-th call.  `fuel` bounds the number of
read calls we unfold; `none` means the loop did not return within `fuel`
calls.  Faithful details: a read error is indistinguishable from a zero-byte
read (`.unwrap_or_default()`); the deadline return hands back the
accumulated string untrimmed (line 58); the newline return trims it
(line 69). -/
def readStringAux (stream : Nat → ReadEvent) (timeout : Nat → Bool) :
    Nat → Nat → String → Option String
  | 0, _, _ => none
  | fuel + 1, k, acc =>
    match stream k with
    | .byte b =>
      if b = 10 then some (rustTrim acc)
      else readStringAux stream timeout fuel (k + 1) (acc.push (Char.ofNat b))
    | .noData =>
      if timeout k then some acc
      else readStringAux stream timeout fuel (k + 1) acc
    | .ioError =>
      if timeout k then some acc
      else readStringAux stream timeout fuel (k + 1) acc

/-- Finite-trace stream: the k-th read returns the k-th listed event, and
zero bytes forever after the list is exhausted. -/
def streamOf (events : List ReadEvent) : Nat → ReadEvent :=
  fun k => events.getD k .noData

/-- Finite-trace deadline: the 1000 ms deadline elapses exactly when the
listed events are exhausted. -/
def timeoutOf (events : List ReadEvent) : Nat → Bool :=
  fun k => decide (events.length ≤ k)

/-- The read_string loop run on a finite trace, with enough fuel for every
listed event plus the final deadline check. -/
def readStringCore (events : List ReadEvent) : Option String :=
  readStringAux (streamOf events) (timeoutOf events) (events.length + 1) 0 ""

/-- Direct structural form of the read_string loop on a finite trace:
the empty trace means the stream yields no more bytes and the deadline
elapses, so the accumulated string is returned untrimmed (line 58);
a newline byte returns the trimmed accumulation (line 69); any other byte
is appended; zero-byte reads and read errors before the deadline loop. -/
def readStringList : List ReadEvent → String → String
  | [], acc => acc
  | e :: rest, acc =>
    match e with
    | .byte b =>
      if b = 10 then rustTrim acc
      else readStringList rest (acc.push (Char.ofNat b))
    | .noData => readStringList rest acc
    | .ioError => readStringList rest acc

/-- The string value produced by `read_string` on a finite trace. -/
def readStringVal (events : List ReadEvent) : String :=
  readStringList events ""

/-- Abstract I/O error (Rust `std::io::Error`), identified by a code so that
"propagated unchanged" is expressible. -/
structure IOError : Type where
  code : Nat
deriving DecidableEq

/-- ODrive::read_string, result as seen by the caller: the code wraps the
loop's string in `Ok` (lines 58 and 69 are the only returns). -/
def read_string (events : List ReadEvent) : Except IOError String :=
  .ok (readStringVal events)

/-- ASCII decimal digit. -/
def isDigit (c : Char) : Bool :=
  48 ≤ c.toNat && c.toNat ≤ 57

/-- Numeric value of a list of ASCII digits, most significant first. -/
def digitsToNat (ds : List Char) : Nat :=
  ds.foldl (fun acc c => 10 * acc + (c.toNat - 48)) 0

/-- Rust `i32::from_str` on a trimmed string: an optional sign followed by
at least one ASCII digit, rejecting anything else and values outside the
i32 range. -/
def parseI32 (s : String) : Option Int :=
  let (sgn, ds) : Int × List Char :=
    match s.data with
    | '-' :: r => (-1, r)
    | '+' :: r => (1, r)
    | r => (1, r)
  if ds ≠ [] ∧ ds.all isDigit then
    let v : Int := sgn * (digitsToNat ds : Int)
    if -2147483648 ≤ v ∧ v ≤ 2147483647 then some v else none
  else none

/-- ASCII lower-casing, for the case-insensitive special float literals. -/
def toLowerAscii (c : Char) : Char :=
  if 65 ≤ c.toNat ∧ c.toNat ≤ 90 then Char.ofNat (c.toNat + 32) else c

/-- Value space of a parsed `f32` literal: a finite value (kept as the
exact rational the literal denotes; IEEE rounding is not modelled), an
infinity, or NaN.  `f32::default()` is the finite value 0. -/
inductive F32Val : Type where
  | num (q : ℚ)
  | posInf
  | negInf
  | nan
deriving DecidableEq

/-- Mantissa of a Rust float literal: `Digit+`, `Digit+ . Digit*` or
`. Digit+`; its exact rational value on success. -/
def parseMantissa (cs : List Char) : Option ℚ :=
  let intPart := cs.takeWhile isDigit
  let rest := cs.dropWhile isDigit
  match rest with
  | [] =>
    if intPart = [] then none
    else some (digitsToNat intPart : ℚ)
  | '.' :: frac =>
    if frac.all isDigit ∧ (intPart ≠ [] ∨ frac ≠ []) then
      some ((digitsToNat intPart : ℚ) +
        (digitsToNat frac : ℚ) / (10 : ℚ) ^ frac.length)
    else none
  | _ => none

/-- Exponent of a Rust float literal: an optional sign then `Digit+`. -/
def parseExp (cs : List Char) : Option Int :=
  let (sgn, ds) : Int × List Char :=
    match cs with
    | '-' :: r => (-1, r)
    | '+' :: r => (1, r)
    | r => (1, r)
  if ds ≠ [] ∧ ds.all isDigit then some (sgn * (digitsToNat ds : Int))
  else none

/-- Number part of a Rust float literal: mantissa with an optional
`e`/`E`-marked exponent. -/
def parseNumber (cs : List Char) : Option ℚ :=
  let mant := cs.takeWhile (fun c => !(c = 'e' || c = 'E'))
  let rest := cs.dropWhile (fun c => !(c = 'e' || c = 'E'))
  match rest with
  | [] => parseMantissa mant
  | _ :: expChars =>
    match parseMantissa mant, parseExp expChars with
    | some q, some e => some (q * (10 : ℚ) ^ e)
    | _, _ => none

/-- Rust `f32::from_str` on a trimmed string, up to IEEE rounding: an
optional sign followed by `inf`, `infinity`, `nan` (case-insensitive) or a
number.  Parsing never fails on overflow (huge literals saturate to
infinity in Rust), so success is exactly grammar membership. -/
def parseF32 (s : String) : Option F32Val :=
  let (neg, body) : Bool × List Char :=
    match s.data with
    | '-' :: r => (true, r)
    | '+' :: r => (false, r)
    | r => (false, r)
  let low := body.map toLowerAscii
  if low = "inf".data ∨ low = "infinity".data then
    some (if neg then .negInf else .posInf)
  else if low = "nan".data then some .nan
  else
    match parseNumber body with
    | some q => some (.num (if neg then -q else q))
    | none => none

/-- The f32 value `read_float` hands back: the parsed reply, or
`f32::default()` = 0.0 when parsing fails (`.unwrap_or_default()`,
src/commands/mod.rs line 75). -/
def readFloatVal (events : List ReadEvent) : F32Val :=
  (parseF32 (readStringVal events)).getD (.num 0)

/-- The i32 value `read_int` hands back: the parsed reply, or
`i32::default()` = 0 when parsing fails (line 80). -/
def readIntVal (events : List ReadEvent) : Int :=
  (parseI32 (readStringVal events)).getD 0

/-- ODrive::read_float (src/commands/mod.rs lines 74-76). -/
def read_float (events : List ReadEvent) : Except IOError F32Val :=
  .ok (readFloatVal events)

/-- ODrive::read_int (src/commands/mod.rs lines 79-81). -/
def read_int (events : List ReadEvent) : Except IOError Int :=
  .ok (readIntVal events)

/-- Modelled from the spec: the `enumerations` module is not part of the
core source; the spec describes the axis identifier as a small integer
enumeration (0 or 1) serialized as an 8-bit value on the wire. -/
inductive Axis : Type where
  | Zero
  | One
deriving DecidableEq

/-- Wire value of an axis identifier (the Rust `axis as u8` cast). -/
def Axis.toU8 : Axis → Nat
  | .Zero => 0
  | .One => 1

/-- Modelled from the spec: the `enumerations` module is not part of the
core source; the spec describes axis states as an integer enumeration with
one state designated idle, serialized numerically.  The device's wire value
for the idle state is 1; `run_state` compares poll replies against
`AxisState::Idle as i32`. -/
def AxisState.idle : Nat := 1

/-- An `f32` command argument, identified by the text Rust's `Display`
formatting produces for it (the spec leaves the textual representation to
the library default, and the wire format is all the claims speak about).
Rust renders `f32::default()` (0.0) as "0". -/
structure F32 : Type where
  render : String
deriving DecidableEq

/-- Rendering of the defaulted feed-forward value: Rust formats 0.0f32
as "0". -/
def F32.zero : F32 := ⟨"0"⟩

/-- Outcome of each successive write or flush call on the underlying
stream: `none` means success, `some e` means it fails with `e`. -/
def WriteModel : Type := Nat → Option IOError

/-- The always-succeeding stream. -/
def wmOk : WriteModel := fun _ => none

/-- Observable state of the client's connection: how many write/flush
calls happened, the lines successfully written, and how many line reads
were performed. -/
structure Conn : Type where
  wIdx : Nat
  out : List String
  reads : Nat
deriving DecidableEq

/-- A fresh connection. -/
def conn0 : Conn := ⟨0, [], 0⟩

/-- One `writeln!` call: consumes the next write slot; on success the line
plus the newline that `writeln!` appends is recorded; on failure the error
is handed back and nothing is recorded. -/
def writelnOp (wm : WriteModel) (line : String) (c : Conn) :
    Conn × Option IOError :=
  match wm c.wIdx with
  | some e => (c, some e)
  | none => ({ c with wIdx := c.wIdx + 1, out := c.out ++ [line ++ "\n"] }, none)

/-- One `flush` call: consumes the next write slot. -/
def flushOp (wm : WriteModel) (c : Conn) : Conn × Option IOError :=
  match wm c.wIdx with
  | some e => (c, some e)
  | none => ({ c with wIdx := c.wIdx + 1 }, none)

/-- The writeln-then-flush pattern shared by every command writer: `?` on
the `writeln!`, then `self.flush()`. -/
def sendLine (wm : WriteModel) (line : String) (c : Conn) :
    Conn × Except IOError Unit :=
  match writelnOp wm line c with
  | (c1, some e) => (c1, .error e)
  | (c1, none) =>
    match flushOp wm c1 with
    | (c2, some e) => (c2, .error e)
    | (c2, none) => (c2, .ok ())

/-- ODrive::set_position_p (src/commands/mod.rs lines 92-97): omitted
feed-forward values default to `f32::default()` via `.unwrap_or_default()`,
and the line `p <axis> <position> <vel_ff> <cur_ff>` is written and
flushed. -/
def set_position_p (wm : WriteModel) (axis : Axis) (position : F32)
    (velocity_feed_forward current_feed_forward : Option F32) (c : Conn) :
    Conn × Except IOError Unit :=
  let v := velocity_feed_forward.getD F32.zero
  let k := current_feed_forward.getD F32.zero
  sendLine wm ("p " ++ toString axis.toU8 ++ " " ++ position.render ++ " " ++
    v.render ++ " " ++ k.render) c

/-- ODrive::set_position_q (src/commands/mod.rs lines 105-110). -/
def set_position_q (wm : WriteModel) (axis : Axis) (position : F32)
    (velocity_limit current_limit : Option F32) (c : Conn) :
    Conn × Except IOError Unit :=
  let v := velocity_limit.getD F32.zero
  let k := current_limit.getD F32.zero
  sendLine wm ("q " ++ toString axis.toU8 ++ " " ++ position.render ++ " " ++
    v.render ++ " " ++ k.render) c

/-- ODrive::set_velocity (src/commands/mod.rs lines 117-121). -/
def set_velocity (wm : WriteModel) (axis : Axis) (position : F32)
    (current_feed_forward : Option F32) (c : Conn) :
    Conn × Except IOError Unit :=
  let k := current_feed_forward.getD F32.zero
  sendLine wm ("v " ++ toString axis.toU8 ++ " " ++ position.render ++ " " ++
    k.render) c

/-- ODrive::set_current (src/commands/mod.rs lines 126-129). -/
def set_current (wm : WriteModel) (axis : Axis) (current : F32) (c : Conn) :
    Conn × Except IOError Unit :=
  sendLine wm ("c " ++ toString axis.toU8 ++ " " ++ current.render) c

/-- ODrive::set_trajectory (src/commands/mod.rs lines 135-138). -/
def set_trajectory (wm : WriteModel) (axis : Axis) (position : F32)
    (c : Conn) : Conn × Except IOError Unit :=
  sendLine wm ("t " ++ toString axis.toU8 ++ " " ++ position.render) c

/-- ODrive::get_velocity (src/commands/mod.rs lines 142-146): writes the
line `r axis<N> .encoder.vel_estimate` (note the space before `.encoder`,
exactly as in the source format string), flushes, and only then performs
the float read on the inbound trace `events`. -/
def get_velocity (wm : WriteModel) (events : List ReadEvent) (axis : Axis)
    (c : Conn) : Conn × Except IOError F32Val :=
  match sendLine wm ("r axis" ++ toString axis.toU8 ++
      " .encoder.vel_estimate") c with
  | (c1, .error e) => (c1, .error e)
  | (c1, .ok _) =>
    ({ c1 with reads := c1.reads + 1 }, .ok (readFloatVal events))

/-- The polling loop of ODrive::run_state (src/commands/mod.rs lines
152-159).  `polls i` is the inbound trace consumed by the i-th poll's
`read_int`; `ctr` is `timeout_ctr`.  Each iteration sleeps 100 ms (wall
clock, not modelled), writes and flushes `r axis<N>.current_state`,
decrements the counter, reads an integer, and repeats while the reply
differs from `AxisState::Idle as i32` and the counter is still positive.
Returns the final counter value. -/
def runStateLoop (wm : WriteModel) (polls : Nat → List ReadEvent)
    (axis : Axis) (i ctr : Nat) (c : Conn) : Conn × Except IOError Nat :=
  match sendLine wm ("r axis" ++ toString axis.toU8 ++ ".current_state") c with
  | (c1, .error e) => (c1, .error e)
  | (c1, .ok _) =>
    let ctr2 := ctr - 1
    let v := readIntVal (polls i)
    let c2 := { c1 with reads := c1.reads + 1 }
    if h : v ≠ ((AxisState.idle : Nat) : Int) ∧ 0 < ctr2 then
      runStateLoop wm polls axis (i + 1) ctr2 c2
    else (c2, .ok ctr2)
termination_by ctr
decreasing_by omega

/-- ODrive::run_state (src/commands/mod.rs lines 148-163): sets
`timeout_ctr` to 100, writes and flushes
`w axis<N>.requested_state <state>` (with `requested_state as u8` modelled
by the state's wire value), runs the polling loop when `wait` is set, and
returns `Ok(timeout_ctr > 0)`. -/
def run_state (wm : WriteModel) (polls : Nat → List ReadEvent) (axis : Axis)
    (requested_state : Nat) (wait : Bool) (c : Conn) :
    Conn × Except IOError Bool :=
  let ctr := 100
  match sendLine wm ("w axis" ++ toString axis.toU8 ++ ".requested_state " ++
      toString requested_state) c with
  | (c1, .error e) => (c1, .error e)
  | (c1, .ok _) =>
    if wait then
      match runStateLoop wm polls axis 0 ctr c1 with
      | (c2, .error e) => (c2, .error e)
      | (c2, .ok ctrF) => (c2, .ok (decide (0 < ctrF)))
    else (c1, .ok (decide (0 < ctr)))

/-- The characters accumulated from a trace: each byte event contributes
the character `u8 as char` yields, other events contribute nothing. -/
def accumList (evs : List ReadEvent) : List Char :=
  evs.filterMap fun e =>
    match e with
    | .byte b => some (Char.ofNat b)
    | _ => none

/-- On a finite trace model, the fuelled loop returns within
`events.length + 1` read calls and computes `readStringList`. -/
lemma readStringAux_finite (evs : List ReadEvent) : ∀ fuel k acc,
    evs.length + 1 ≤ fuel + k → 0 < fuel →
    readStringAux (streamOf evs) (timeoutOf evs) fuel k acc =
      some (readStringList (evs.drop k) acc) := by
  intro fuel
  induction fuel with
  | zero => intro k acc _ hpos; omega
  | succ f ih =>
    intro k acc h _
    by_cases hk : k < evs.length
    · have hdrop := List.drop_eq_getElem_cons hk
      have hget : evs[k]? = some evs[k] := List.getElem?_eq_getElem hk
      have htime : timeoutOf evs k = false := by
        simp [timeoutOf]; omega
      cases hev : evs[k] with
      | byte b =>
        by_cases hb : b = 10
        · subst hb
          simp [readStringAux, streamOf, hget, hev, hdrop, readStringList]
        · have hrec := ih (k + 1) (acc.push (Char.ofNat b)) (by omega) (by omega)
          simp [readStringAux, streamOf, hget, hev, htime, hb, hdrop,
            readStringList, hrec]
      | noData =>
        have hrec := ih (k + 1) acc (by omega) (by omega)
        simp [readStringAux, streamOf, hget, hev, htime, hdrop,
          readStringList, hrec]
      | ioError =>
        have hrec := ih (k + 1) acc (by omega) (by omega)
        simp [readStringAux, streamOf, hget, hev, htime, hdrop,
          readStringList, hrec]
    · have hdrop : evs.drop k = [] := List.drop_eq_nil_of_le (by omega)
      have hget : evs[k]? = none := by
        rw [List.getElem?_eq_none_iff]; omega
      have htime : timeoutOf evs k = true := by
        simp [timeoutOf]; omega
      simp [readStringAux, streamOf, hget, htime, hdrop, readStringList]

/-- The fuelled model and the structural model agree on finite traces. -/
lemma readStringCore_eq (evs : List ReadEvent) :
    readStringCore evs = some (readStringVal evs) := by
  have h := readStringAux_finite evs (evs.length + 1) 0 ""
    (by omega) (by omega)
  simpa [readStringCore, readStringVal] using h

/-- A trace without a newline byte only accumulates: the loop ends in the
deadline return and hands the accumulation back untrimmed. -/
lemma readStringList_no_newline : ∀ (evs : List ReadEvent) (acc : List Char),
    ReadEvent.byte 10 ∉ evs →
    readStringList evs (String.mk acc) = String.mk (acc ++ accumList evs) := by
  intro evs
  induction evs with
  | nil => intro acc _; simp [readStringList, accumList]
  | cons e rest ih =>
    intro acc h
    have hrest : ReadEvent.byte 10 ∉ rest := fun hm => h (List.mem_cons_of_mem _ hm)
    cases e with
    | byte b =>
      have hb : b ≠ 10 := fun hb => h (by simp [hb])
      have hpush : (String.mk acc).push (Char.ofNat b) =
          String.mk (acc ++ [Char.ofNat b]) := rfl
      simp only [readStringList, hb, if_false, hpush, ih _ hrest,
        accumList, List.filterMap_cons]
      simp
    | noData =>
      simp only [readStringList, ih _ hrest, accumList, List.filterMap_cons]
    | ioError =>
      simp only [readStringList, ih _ hrest, accumList, List.filterMap_cons]

/-- A newline after a newline-free trace returns the accumulation
trimmed. -/
lemma readStringList_newline : ∀ (evs : List ReadEvent) (acc : List Char),
    ReadEvent.byte 10 ∉ evs →
    readStringList (evs ++ [ReadEvent.byte 10]) (String.mk acc) =
      rustTrim (String.mk (acc ++ accumList evs)) := by
  intro evs
  induction evs with
  | nil => intro acc _; simp [readStringList, accumList]
  | cons e rest ih =>
    intro acc h
    have hrest : ReadEvent.byte 10 ∉ rest := fun hm => h (List.mem_cons_of_mem _ hm)
    cases e with
    | byte b =>
      have hb : b ≠ 10 := fun hb => h (by simp [hb])
      have hpush : (String.mk acc).push (Char.ofNat b) =
          String.mk (acc ++ [Char.ofNat b]) := rfl
      rw [List.cons_append]
      simp only [readStringList]
      rw [if_neg hb, hpush, ih _ hrest]
      simp [accumList]
    | noData =>
      rw [List.cons_append]
      simp only [readStringList]
      rw [ih _ hrest]
      simp [accumList]
    | ioError =>
      rw [List.cons_append]
      simp only [readStringList]
      rw [ih _ hrest]
      simp [accumList]

/-- Read errors and zero-byte reads take the same branch of the loop. -/
lemma readStringList_ioError_noData :
    ∀ (pre post : List ReadEvent) (acc : String),
    readStringList (pre ++ ReadEvent.ioError :: post) acc =
      readStringList (pre ++ ReadEvent.noData :: post) acc := by
  intro pre
  induction pre with
  | nil => intro post acc; simp [readStringList]
  | cons e rest ih =>
    intro post acc
    cases e with
    | byte b =>
      by_cases hb : b = 10 <;>
        simp [readStringList, hb, ih]
    | noData => simp [readStringList, ih]
    | ioError => simp [readStringList, ih]

/-- A trace of nothing but read errors accumulates nothing. -/
lemma readStringList_all_ioError : ∀ (n : Nat) (acc : String),
    readStringList (List.replicate n ReadEvent.ioError) acc = acc := by
  intro n
  induction n with
  | zero => intro acc; simp [readStringList]
  | succ m ih => intro acc; simp [List.replicate_succ, readStringList, ih]

/-- Writing and flushing on the always-succeeding stream records the line
and consumes two write slots. -/
lemma sendLine_ok (line : String) (c : Conn) :
    sendLine wmOk line c =
      ({ c with wIdx := c.wIdx + 2, out := c.out ++ [line ++ "\n"] }, .ok ()) :=
  rfl

/-- A failing write aborts `sendLine` with the stream's error and leaves
the connection untouched. -/
lemma sendLine_write_fail (wm : WriteModel) (line : String) (c : Conn)
    (e : IOError) (h : wm c.wIdx = some e) :
    sendLine wm line c = (c, .error e) := by
  simp [sendLine, writelnOp, h]

/-- A failing flush after a successful write aborts `sendLine` with the
stream's error; the line was written but the flush slot failed. -/
lemma sendLine_flush_fail (wm : WriteModel) (line : String) (c : Conn)
    (e : IOError) (h1 : wm c.wIdx = none) (h2 : wm (c.wIdx + 1) = some e) :
    sendLine wm line c =
      ({ c with wIdx := c.wIdx + 1, out := c.out ++ [line ++ "\n"] },
        .error e) := by
  simp [sendLine, writelnOp, flushOp, h1, h2]

/-- A successful write slot followed by a successful flush slot records
the line and consumes both slots. -/
lemma sendLine_ok_of (wm : WriteModel) (line : String) (c : Conn)
    (h1 : wm c.wIdx = none) (h2 : wm (c.wIdx + 1) = none) :
    sendLine wm line c =
      (⟨c.wIdx + 1 + 1, c.out ++ [line ++ "\n"], c.reads⟩, .ok ()) := by
  simp [sendLine, writelnOp, flushOp, h1, h2]

/-- One unfolding of the polling loop on the always-succeeding stream. -/
lemma runStateLoop_step (polls : Nat → List ReadEvent) (axis : Axis)
    (i ctr : Nat) (c : Conn) :
    runStateLoop wmOk polls axis i ctr c =
      (if _h : readIntVal (polls i) ≠ ((AxisState.idle : Nat) : Int) ∧
          0 < ctr - 1
       then runStateLoop wmOk polls axis (i + 1) (ctr - 1)
         ⟨c.wIdx + 2,
          c.out ++ ["r axis" ++ toString axis.toU8 ++ ".current_state" ++
            "\n"],
          c.reads + 1⟩
       else (⟨c.wIdx + 2,
          c.out ++ ["r axis" ++ toString axis.toU8 ++ ".current_state" ++
            "\n"],
          c.reads + 1⟩, .ok (ctr - 1))) := by
  rw [runStateLoop.eq_def, sendLine_ok]

/-- Full characterization of the polling loop on the always-succeeding
stream: it returns `Ok` with a strictly smaller counter, performs one
integer read per counter step consumed, ends with a positive counter
exactly when some poll within the first `ctr - 1` window reported the idle
value, and stops after the very first poll when that poll is idle. -/
lemma runStateLoop_spec (polls : Nat → List ReadEvent) (axis : Axis) :
    ∀ ctr i c, 0 < ctr →
    ∃ ctrF cF, runStateLoop wmOk polls axis i ctr c = (cF, .ok ctrF) ∧
      ctrF < ctr ∧ cF.reads = c.reads + (ctr - ctrF) ∧
      (0 < ctrF ↔ ∃ k, k < ctr - 1 ∧
        readIntVal (polls (i + k)) = ((AxisState.idle : Nat) : Int)) ∧
      (readIntVal (polls i) = ((AxisState.idle : Nat) : Int) →
        ctrF = ctr - 1) := by
  intro ctr
  induction ctr using Nat.strong_induction_on with
  | _ ctr ih =>
    intro i c hctr
    by_cases hg : readIntVal (polls i) ≠ ((AxisState.idle : Nat) : Int) ∧
        0 < ctr - 1
    · obtain ⟨ctrF, cF, heq, hlt, hreads, hiff, _⟩ :=
        ih (ctr - 1) (by omega) (i + 1)
          ⟨c.wIdx + 2,
           c.out ++ ["r axis" ++ toString axis.toU8 ++ ".current_state" ++
             "\n"],
           c.reads + 1⟩ hg.2
      clear ih
      have hr2 : cF.reads = c.reads + 1 + (ctr - 1 - ctrF) := by
        simpa using hreads
      clear hreads
      have hr3 : cF.reads = c.reads + (ctr - ctrF) := by
        clear hiff heq
        omega
      have hiff2 : 0 < ctrF ↔ ∃ k, k < ctr - 1 ∧
          readIntVal (polls (i + k)) = ((AxisState.idle : Nat) : Int) := by
        rw [hiff]
        clear hiff heq hr2 hr3
        constructor
        · rintro ⟨k, hk, hkid⟩
          have hk2 : k + 1 < ctr - 1 := by
            clear hkid
            omega
          have hidx : i + (k + 1) = i + 1 + k := by
            clear hkid hk2 hk
            omega
          refine ⟨k + 1, hk2, ?_⟩
          rw [hidx]; exact hkid
        · rintro ⟨k, hk, hkid⟩
          cases k with
          | zero => exact absurd (by simpa using hkid) hg.1
          | succ m =>
            have hm : m < ctr - 1 - 1 := by
              clear hkid
              omega
            have hidx : i + 1 + m = i + (m + 1) := by
              clear hkid hm hk
              omega
            refine ⟨m, hm, ?_⟩
            rw [hidx]; exact hkid
      have hlt2 : ctrF < ctr := by
        clear heq hiff hiff2 hr2 hr3
        omega
      refine ⟨ctrF, cF, ?_, hlt2, hr3, hiff2,
        fun hidle => absurd hidle hg.1⟩
      rw [runStateLoop_step, dif_pos hg, heq]
    · have hiff2 : 0 < ctr - 1 ↔ ∃ k, k < ctr - 1 ∧
          readIntVal (polls (i + k)) = ((AxisState.idle : Nat) : Int) := by
        rw [not_and_or, not_not] at hg
        constructor
        · intro hpos
          rcases hg with hid | hz
          · exact ⟨0, by omega, by simpa using hid⟩
          · omega
        · rintro ⟨k, hk, _⟩
          omega
      refine ⟨ctr - 1,
        ⟨c.wIdx + 2,
         c.out ++ ["r axis" ++ toString axis.toU8 ++ ".current_state" ++
           "\n"],
         c.reads + 1⟩, ?_, by omega, ?_, hiff2, fun _ => rfl⟩
      · rw [runStateLoop_step, dif_neg hg]
      · show c.reads + 1 = c.reads + (ctr - (ctr - 1))
        omega

/-- Waiting `run_state` on the always-succeeding stream is the polling
loop run from counter 100 after the requested-state command went out. -/
lemma run_state_wait_eq (polls : Nat → List ReadEvent) (axis : Axis)
    (rs : Nat) (c : Conn) (ctrF : Nat) (cF : Conn)
    (h : runStateLoop wmOk polls axis 0 100
      ⟨c.wIdx + 2,
       c.out ++ ["w axis" ++ toString axis.toU8 ++ ".requested_state " ++
         toString rs ++ "\n"],
       c.reads⟩ = (cF, .ok ctrF)) :
    run_state wmOk polls axis rs true c = (cF, .ok (decide (0 < ctrF))) := by
  have e1 : run_state wmOk polls axis rs true c =
      (match runStateLoop wmOk polls axis 0 100
        ⟨c.wIdx + 2,
         c.out ++ ["w axis" ++ toString axis.toU8 ++ ".requested_state " ++
           toString rs ++ "\n"],
         c.reads⟩ with
      | (c2, .error e) => (c2, .error e)
      | (c2, .ok ctrX) => (c2, .ok (decide (0 < ctrX)))) := rfl
  rw [e1, h]

/-- On a stream that yields a non-newline byte on every read call, the
read_string loop never returns, whatever the deadline predicate says. -/
lemma readStringAux_endless_bytes : ∀ (timeout : Nat → Bool) fuel k acc,
    readStringAux (fun _ => ReadEvent.byte 97) timeout fuel k acc = none := by
  intro timeout fuel
  induction fuel with
  | zero => intro k acc; rfl
  | succ f ih => intro k acc; simpa [readStringAux] using ih (k + 1) _

/-- Claim C1: the claim states the velocity query sends exactly
"r axis<N>.encoder.vel_estimate" with the dotted path as its only
separator.  The code formats "r axis{} .encoder.vel_estimate" — with a
space between the axis token and ".encoder.vel_estimate" — so on axis 0
the outbound line is "r axis0 .encoder.vel_estimate\n", which differs from
the claimed line.  The sibling format strings in run_state use the dotted
form without a space, matching the spec's wire grammar. -/
theorem get_velocity_space_in_property_path :
    (get_velocity wmOk [] Axis.Zero conn0).1.out =
      ["r axis0 .encoder.vel_estimate\n"] ∧
    ("r axis0 .encoder.vel_estimate\n" : String) ≠
      "r axis0.encoder.vel_estimate\n" := by
  exact ⟨rfl, by decide⟩

/-- Claim C2, counterexample: a trace that accumulates " a " and then times out
makes read_string return " a " — not trimmed, contradicting the claim that
the timeout path also trims. -/
theorem read_string_timeout_untrimmed_cex :
    read_string [ReadEvent.byte 32, ReadEvent.byte 97, ReadEvent.byte 32] =
      .ok " a " ∧ rustTrim " a " = "a" ∧ (" a " : String) ≠ "a" := by
  exact ⟨rfl, by decide, by decide⟩

/-- Claim C2, amended: the string returned by read_string is trimmed when a
newline terminates the accumulation; when the deadline elapses first, the
bytes accumulated so far are returned untrimmed. -/
theorem read_string_trim_newline_only (evs : List ReadEvent)
    (h : ReadEvent.byte 10 ∉ evs) :
    read_string (evs ++ [ReadEvent.byte 10]) =
      .ok (rustTrim (String.mk (accumList evs))) ∧
    read_string evs = .ok (String.mk (accumList evs)) := by
  constructor
  · have h2 := readStringList_newline evs [] h
    have h3 := congrArg (Except.ok (ε := IOError)) h2
    simpa [read_string, readStringVal] using h3
  · have h2 := readStringList_no_newline evs [] h
    have h3 := congrArg (Except.ok (ε := IOError)) h2
    simpa [read_string, readStringVal] using h3

/-- Claim C2, witness: on the concrete trace for " a" followed by a newline the
result is trimmed, and without the newline it is returned raw. -/
theorem read_string_trim_newline_only_witness :
    read_string ([ReadEvent.byte 32, ReadEvent.byte 97] ++
        [ReadEvent.byte 10]) =
      .ok (rustTrim (String.mk
        (accumList [ReadEvent.byte 32, ReadEvent.byte 97]))) ∧
    read_string [ReadEvent.byte 32, ReadEvent.byte 97] =
      .ok (String.mk (accumList [ReadEvent.byte 32, ReadEvent.byte 97])) :=
  read_string_trim_newline_only [ReadEvent.byte 32, ReadEvent.byte 97]
    (by decide)

/-- Claim C3, counterexample: on a stream whose read fails, read_string returns
Ok "" — the I/O error is not handed to the caller, contradicting the claim
that read errors other than "no data available" propagate. -/
theorem read_string_swallows_read_error_cex :
    read_string [ReadEvent.ioError] = .ok "" ∧
    ¬ ∃ e, read_string [ReadEvent.ioError] = Except.error e := by
  refine ⟨rfl, ?_⟩
  rintro ⟨e, he⟩
  rw [read_string] at he
  exact Except.noConfusion he

/-- Claim C3, amended: `.unwrap_or_default()` on the read result makes every
stream-level read error behave exactly like a zero-byte "no data" read:
the loop's result is unchanged when one is replaced by the other. -/
theorem read_error_equiv_no_data (pre post : List ReadEvent) :
    read_string (pre ++ ReadEvent.ioError :: post) =
      read_string (pre ++ ReadEvent.noData :: post) := by
  unfold read_string readStringVal
  rw [readStringList_ioError_noData]

/-- Claim C4, counterexample: against a stream that produces the byte of the
character a on every read call, the read_string loop returns within no
number of read calls — even with the deadline predicate constantly true —
because the elapsed-time check is only reached after a zero-byte read.
The claim that read_string terminates on such a stream fails. -/
theorem read_string_diverges_on_endless_bytes_cex :
    ¬ ∃ fuel r, readStringAux (fun _ => ReadEvent.byte 97) (fun _ => true)
      fuel 0 "" = some r := by
  rintro ⟨fuel, r, hr⟩
  rw [readStringAux_endless_bytes] at hr
  exact Option.noConfusion hr

/-- Claim C4, amended: read_string returns immediately upon a newline byte, and
on any stream that eventually stops yielding bytes it returns once the
deadline elapses — the finite-trace run agrees with the structural
semantics — but no termination bound exists when non-newline bytes keep
arriving. -/
theorem read_string_termination :
    (∀ evs, readStringCore evs = some (readStringVal evs)) ∧
    (∀ (stream : Nat → ReadEvent) (timeout : Nat → Bool) fuel k acc,
      0 < fuel → stream k = ReadEvent.byte 10 →
      readStringAux stream timeout fuel k acc = some (rustTrim acc)) := by
  constructor
  · exact readStringCore_eq
  · intro stream timeout fuel k acc hfuel hk
    cases fuel with
    | zero => omega
    | succ f => simp [readStringAux, hk]

/-- Claim C4, witness: a newline on the very first read returns at once. -/
theorem read_string_termination_witness :
    readStringAux (fun _ => ReadEvent.byte 10) (fun _ => false) 1 0 " x " =
      some (rustTrim " x ") :=
  read_string_termination.2 (fun _ => ReadEvent.byte 10) (fun _ => false)
    1 0 " x " (by decide) rfl

/-- Claim C6: when the trimmed reply line does not parse as the target numeric
type, read_float yields the f32 default 0.0 and read_int yields the i32
default 0; neither surfaces an error (both are Ok). -/
theorem numeric_read_parse_failure_zero (evs : List ReadEvent) :
    (parseF32 (readStringVal evs) = none →
      read_float evs = .ok (F32Val.num 0)) ∧
    (parseI32 (readStringVal evs) = none → read_int evs = .ok 0) := by
  constructor
  · intro h
    rw [read_float, readFloatVal, h]
    rfl
  · intro h
    rw [read_int, readIntVal, h]
    rfl

/-- Claim C6, witness: the trace carrying "ERR\n" parses as neither float nor
int, so both readers hand back zero. -/
theorem numeric_read_parse_failure_zero_witness :
    read_float [ReadEvent.byte 69, ReadEvent.byte 82, ReadEvent.byte 82,
      ReadEvent.byte 10] = .ok (F32Val.num 0) ∧
    read_int [ReadEvent.byte 69, ReadEvent.byte 82, ReadEvent.byte 82,
      ReadEvent.byte 10] = .ok 0 :=
  ⟨(numeric_read_parse_failure_zero _).1 (by decide),
   (numeric_read_parse_failure_zero _).2 (by decide)⟩

/-- Claim C10: the inbound read path is infallible — read_string, read_float and
read_int always return Ok, whatever the stream does; in particular a
stream producing nothing but read errors is indistinguishable from a
timeout with an empty reply. -/
theorem read_path_infallible :
    (∀ evs, read_string evs = .ok (readStringVal evs) ∧
      read_float evs = .ok (readFloatVal evs) ∧
      read_int evs = .ok (readIntVal evs)) ∧
    (∀ n, read_string (List.replicate n ReadEvent.ioError) = .ok "") := by
  constructor
  · exact fun evs => ⟨rfl, rfl, rfl⟩
  · intro n
    rw [read_string, readStringVal, readStringList_all_ioError]

/-- Claim C5: waiting run_state on a healthy stream always returns Ok with a
boolean; the boolean is true exactly when one of the first 99 polls
reported the idle value (so a budget exhausted after 100 polls — even with
idle first seen on the 100th — gives false); at most 100 integer reads are
performed; and when the very first poll reports idle the loop stops after
exactly one read iteration with result true. -/
theorem run_state_wait_poll_budget (polls : Nat → List ReadEvent)
    (axis : Axis) (rs : Nat) (c : Conn) :
    (∃ b cF, run_state wmOk polls axis rs true c = (cF, .ok b) ∧
      (b = true ↔ ∃ k, k < 99 ∧
        readIntVal (polls k) = ((AxisState.idle : Nat) : Int)) ∧
      cF.reads ≤ c.reads + 100) ∧
    (readIntVal (polls 0) = ((AxisState.idle : Nat) : Int) →
      ∃ cF, run_state wmOk polls axis rs true c = (cF, .ok true) ∧
        cF.reads = c.reads + 1) := by
  obtain ⟨ctrF, cF, heq, hlt, hreads, hiff, hfirst⟩ :=
    runStateLoop_spec polls axis 100 0
      ⟨c.wIdx + 2,
       c.out ++ ["w axis" ++ toString axis.toU8 ++ ".requested_state " ++
         toString rs ++ "\n"],
       c.reads⟩ (by omega)
  have hrun := run_state_wait_eq polls axis rs c ctrF cF heq
  clear heq
  have hreads2 : cF.reads = c.reads + (100 - ctrF) := by simpa using hreads
  clear hreads
  have hiff2 : 0 < ctrF ↔ ∃ k, k < 99 ∧
      readIntVal (polls k) = ((AxisState.idle : Nat) : Int) := by
    rw [hiff]
    clear hiff hrun hfirst hreads2 hlt
    constructor
    · rintro ⟨k, hk, hkid⟩
      refine ⟨k, ?_, ?_⟩
      · clear hkid
        omega
      · simpa using hkid
    · rintro ⟨k, hk, hkid⟩
      refine ⟨k, ?_, ?_⟩
      · clear hkid
        omega
      · simpa using hkid
  clear hiff
  constructor
  · refine ⟨decide (0 < ctrF), cF, hrun, ?_, ?_⟩
    · rw [decide_eq_true_eq]
      exact hiff2
    · clear hiff2 hrun hfirst
      omega
  · intro hidle
    have h99 : ctrF = 100 - 1 := hfirst hidle
    clear hiff2 hfirst hidle hlt
    rw [h99] at hrun hreads2
    refine ⟨cF, by simpa using hrun, ?_⟩
    simpa using hreads2

/-- Claim C5, witness: against a stream whose every poll replies "1\n" (the idle
value), waiting run_state returns true having performed exactly one
integer read. -/
theorem run_state_wait_poll_budget_witness :
    ∃ cF, run_state wmOk (fun _ => [ReadEvent.byte 49, ReadEvent.byte 10])
        Axis.Zero 8 true conn0 = (cF, .ok true) ∧
      cF.reads = conn0.reads + 1 :=
  (run_state_wait_poll_budget (fun _ => [ReadEvent.byte 49,
    ReadEvent.byte 10]) Axis.Zero 8 conn0).2 (by decide)

/-- Claim C7: run_state with wait = false writes the set-requested-state line
once, flushes it (two write slots consumed), performs no read, and
returns Ok true immediately, whatever the inbound stream would have
produced. -/
theorem run_state_no_wait_fire_and_forget (polls : Nat → List ReadEvent)
    (axis : Axis) (rs : Nat) (c : Conn) :
    run_state wmOk polls axis rs false c =
      (⟨c.wIdx + 2,
        c.out ++ ["w axis" ++ toString axis.toU8 ++ ".requested_state " ++
          toString rs ++ "\n"],
        c.reads⟩, .ok true) := rfl

/-- Claim C8: an I/O failure of the write slot a command writer uses is handed
back unchanged and the connection is untouched; a failure of the flush
slot after a successful write is likewise handed back; and whenever the
composite velocity query fails this way, its float read never happens (the
read counter is unchanged). -/
theorem write_flush_failure_propagates (wm : WriteModel)
    (evs : List ReadEvent) (axis : Axis) (pos cur : F32)
    (vff cff : Option F32) (c : Conn) (e : IOError) :
    (wm c.wIdx = some e →
      set_position_p wm axis pos vff cff c = (c, .error e) ∧
      set_position_q wm axis pos vff cff c = (c, .error e) ∧
      set_velocity wm axis pos cff c = (c, .error e) ∧
      set_current wm axis cur c = (c, .error e) ∧
      set_trajectory wm axis pos c = (c, .error e) ∧
      get_velocity wm evs axis c = (c, .error e)) ∧
    (wm c.wIdx = none → wm (c.wIdx + 1) = some e →
      get_velocity wm evs axis c =
        (⟨c.wIdx + 1,
          c.out ++ ["r axis" ++ toString axis.toU8 ++
            " .encoder.vel_estimate" ++ "\n"],
          c.reads⟩, .error e) ∧
      set_position_p wm axis pos vff cff c =
        (⟨c.wIdx + 1,
          c.out ++ ["p " ++ toString axis.toU8 ++ " " ++
            pos.render ++ " " ++ (vff.getD F32.zero).render ++ " " ++
            (cff.getD F32.zero).render ++ "\n"],
          c.reads⟩, .error e)) ∧
    (∀ e2, (get_velocity wm evs axis c).2 = .error e2 →
      (get_velocity wm evs axis c).1.reads = c.reads) := by
  refine ⟨?_, ?_, ?_⟩
  · intro h
    have hs := fun line => sendLine_write_fail wm line c e h
    refine ⟨?_, ?_, ?_, ?_, ?_, ?_⟩
    · rw [set_position_p, hs]
    · rw [set_position_q, hs]
    · rw [set_velocity, hs]
    · rw [set_current, hs]
    · rw [set_trajectory, hs]
    · rw [get_velocity, hs]
  · intro h1 h2
    have hs := fun line => sendLine_flush_fail wm line c e h1 h2
    constructor
    · rw [get_velocity, hs]
    · rw [set_position_p, hs]
  · intro e2 he2
    rcases hw : wm c.wIdx with _ | e4
    · rcases hf : wm (c.wIdx + 1) with _ | e5
      · rw [get_velocity,
          sendLine_ok_of wm ("r axis" ++ toString axis.toU8 ++
            " .encoder.vel_estimate") c hw hf] at he2
        simp at he2
      · rw [get_velocity,
          sendLine_flush_fail wm ("r axis" ++ toString axis.toU8 ++
            " .encoder.vel_estimate") c e5 hw hf]
    · rw [get_velocity,
        sendLine_write_fail wm ("r axis" ++ toString axis.toU8 ++
          " .encoder.vel_estimate") c e4 hw]

/-- Claim C8, witness: a stream whose first write slot fails with error 7 makes
the position writer and the velocity query return exactly that error with
the connection untouched. -/
theorem write_flush_failure_propagates_witness :
    set_position_p (fun _ => some ⟨7⟩) Axis.Zero ⟨"1"⟩ none none conn0 =
      (conn0, .error ⟨7⟩) ∧
    get_velocity (fun _ => some ⟨7⟩) [] Axis.Zero conn0 =
      (conn0, .error ⟨7⟩) := by
  obtain ⟨h1, h2, h3, h4, h5, h6⟩ :=
    (write_flush_failure_propagates (fun _ => some ⟨7⟩) [] Axis.Zero
      ⟨"1"⟩ ⟨"1"⟩ none none conn0 ⟨7⟩).1 rfl
  exact ⟨h1, h6⟩

/-- Claim C9: set_position_p writes the single line
p <axis> <position> <vel_ff> <cur_ff> terminated by a newline and flushes
it, where an omitted feed-forward is rendered exactly as "0" (the Display
text of f32::default()). -/
theorem set_position_p_wire_format (axis : Axis) (pos : F32)
    (vff cff : Option F32) (c : Conn) :
    set_position_p wmOk axis pos vff cff c =
      (⟨c.wIdx + 2,
        c.out ++ ["p " ++ toString axis.toU8 ++ " " ++ pos.render ++
          " " ++ (vff.getD F32.zero).render ++ " " ++
          (cff.getD F32.zero).render ++ "\n"],
        c.reads⟩, .ok ()) ∧
    F32.zero.render = "0" ∧
    set_position_p wmOk axis pos none none c =
      (⟨c.wIdx + 2,
        c.out ++ ["p " ++ toString axis.toU8 ++ " " ++ pos.render ++
          " " ++ "0" ++ " " ++ "0" ++ "\n"],
        c.reads⟩, .ok ()) := by
  refine ⟨?_, rfl, ?_⟩
  · rw [set_position_p, sendLine_ok]
  · rw [set_position_p, sendLine_ok]
    rfl

end Odrive
